import Mathlib

/-!
Shallow embedding of the ardent-ms-call-retell worker (JavaScript) in Lean 4,
together with theorems settling the frozen claims about its specification.

Modelled source files:
- `src/sharding.js` (`ShardingManager`): `shouldProcessId`, `startShardMonitoring`,
  `getExampleIds`;
- `src/db.js` (`DatabaseClient`): `getNextSurveyResponse` (the SQL claim query),
  `withRetry`;
- `src/retell.js` (`RetellClient`, the version with duplicate-survey tracking):
  `isSurveyBeingProcessed`, `createPhoneCall`, `cleanupOldCalls`, `withRetry`;
- `src/index.js` (`RetellCaller`, the Odoo-enabled version): the catch clause of
  `processSingleSurvey`, and `retryOperation`.

JavaScript numbers that only ever hold database ids, timestamps or shard counts
are modelled as `Int` (the JS `%` operator is truncated remainder, `Int.tmod`);
delays that mix `Math.random()` jitter are modelled as `Rat`.  JS `Map`s are
modelled as association lists in insertion order with JS `Map` semantics.
-/

/-- A JavaScript `Map` key as it occurs in `activeSurveys`: a number (modelled
as a rational, which is enough to distinguish integral from fractional values),
a string, `null` or `undefined`. -/
inductive JsKey where
  | num (q : ℚ)
  | str (s : String)
  | nullv
  | undef
deriving DecidableEq, Repr

/-- JS `Number.isInteger(x)`: true exactly for integral numbers; false for
strings, `null`, `undefined` (and fractional numbers). -/
def jsIsInteger : JsKey → Bool
  | .num q => q.den == 1
  | _ => false

/-- The integer value of an integral numeric key (used after the
`Number.isInteger` filter in `getNextSurveyResponse`). -/
def jsKeyToInt : JsKey → ℤ
  | .num q => q.num
  | _ => 0

/-- Character-list version of "needle is an initial segment of haystack". -/
def startsWithChars : List Char → List Char → Bool
  | [], _ => true
  | _ :: _, [] => false
  | a :: as, b :: bs => a == b && startsWithChars as bs

/-- Character-list version of JS `String.prototype.includes`. -/
def includesChars (needle : List Char) : List Char → Bool
  | [] => startsWithChars needle []
  | b :: bs => startsWithChars needle (b :: bs) || includesChars needle bs

/-- JS `s.includes(sub)`. -/
def jsIncludes (s sub : String) : Bool :=
  includesChars sub.toList s.toList

/-- A JavaScript error as the retry/catch code inspects it: an optional HTTP
`status`, a `message`, and an optional Postgres error `code`. -/
structure JsError where
  status : Option ℕ
  message : String
  code : Option String
deriving DecidableEq, Repr

/-! ### `src/sharding.js` — ShardingManager -/

/-- From `src/sharding.js` (`shouldProcessId`): `(id % totalShards) === (shardIndex - 1)`
with JS `%` (truncated remainder). -/
def ShardingManager.shouldProcessId (id shardIndex totalShards : ℤ) : Bool :=
  Int.tmod id totalShards == shardIndex - 1

/-- Loop body of `getExampleIds` from `src/sharding.js`: iterate `i` upward,
push ids owned by this shard, stop after `maxExamples` hits or when the fuel
(the remaining loop iterations, `maxExamples * totalShards` at the start) runs
out. -/
def ShardingManager.getExampleIdsGo (shardIndex totalShards : ℤ) (maxExamples : ℕ) :
    ℕ → ℕ → List ℤ → List ℤ
  | _, 0, acc => acc.reverse
  | i, fuel + 1, acc =>
    if ShardingManager.shouldProcessId (i : ℤ) shardIndex totalShards then
      let acc' := (i : ℤ) :: acc
      if maxExamples ≤ acc'.length then acc'.reverse
      else ShardingManager.getExampleIdsGo shardIndex totalShards maxExamples (i + 1) fuel acc'
    else ShardingManager.getExampleIdsGo shardIndex totalShards maxExamples (i + 1) fuel acc

/-- From `src/sharding.js` (`getExampleIds`): enumerate ids `1, 2, …` up to
`maxExamples * totalShards`, keeping the first `maxExamples` ids this shard owns. -/
def ShardingManager.getExampleIds (shardIndex totalShards : ℤ) (maxExamples : ℕ) : List ℤ :=
  ShardingManager.getExampleIdsGo shardIndex totalShards maxExamples 1
    (maxExamples * totalShards.toNat) []

/-- Tail of the `startShardMonitoring` loop from `src/sharding.js`, given the
previous successfully observed total (`lastTotalShards`, already not `null`)
and the remaining successfully observed totals: the list of
`(oldShards, newShards)` callback invocations, in order. -/
def ShardingManager.monitorEmitsFrom (prev : ℤ) : List ℤ → List (ℤ × ℤ)
  | [] => []
  | t :: rest =>
    (if prev ≠ t then [(prev, t)] else []) ++ ShardingManager.monitorEmitsFrom t rest

/-- From `src/sharding.js` (`startShardMonitoring`): given the sequence of
successfully observed `totalShards` values, the list of `callback({oldShards,
newShards})` invocations.  `lastTotalShards` starts as `null`, so the first
observation never triggers the callback. -/
def ShardingManager.monitorEmits : List ℤ → List (ℤ × ℤ)
  | [] => []
  | t :: rest => ShardingManager.monitorEmitsFrom t rest

/-! ### Classified retry with exponential backoff

`withRetry` in `src/retell.js` and `src/db.js` and `retryOperation` in
`src/index.js` share one loop shape and differ only in which errors abort the
loop at once (the `noRetry` classifier).  The k-th invocation of the operation
is modelled by `op k`; `jitter k` models the `Math.random() * 1000` value drawn
before the k-th sleep.  The trace records the propagated result, the number of
invocations of the operation, and the list of slept delays in order.  The
`result` error is optional because the JS loop would throw the undefined
`lastError` if `maxRetries` were 0. -/

/-- Observable outcome of one run of a retry loop. -/
structure RetryTrace (α : Type) where
  result : Except (Option JsError) α
  attempts : ℕ
  sleeps : List ℚ
deriving Repr

/-- Body of the `for (let attempt = 1; attempt <= maxRetries; attempt++)` loop
(`src/retell.js` lines 296-326 and its twins): `fuel` is the number of attempts
still allowed (`maxRetries - attempt + 1`), so `fuel = 1` means
`attempt === maxRetries`, where the loop breaks and rethrows the last error
instead of sleeping. -/
def withRetryCoreGo (noRetry : JsError → Bool) (op : ℕ → Except JsError α)
    (baseDelay : ℚ) (jitter : ℕ → ℚ) :
    ℕ → ℕ → Option JsError → RetryTrace α
  | _, 0, lastError => ⟨.error lastError, 0, []⟩
  | attempt, fuel + 1, _ =>
    match op attempt with
    | .ok v => ⟨.ok v, 1, []⟩
    | .error e =>
      if noRetry e then ⟨.error (some e), 1, []⟩
      else if fuel = 0 then ⟨.error (some e), 1, []⟩
      else
        let d := baseDelay * 2 ^ (attempt - 1) + jitter attempt
        let rest := withRetryCoreGo noRetry op baseDelay jitter (attempt + 1) fuel (some e)
        ⟨rest.result, rest.attempts + 1, d :: rest.sleeps⟩

/-- The full retry loop, starting at attempt 1 with `lastError` undefined. -/
def withRetryCore (noRetry : JsError → Bool) (op : ℕ → Except JsError α)
    (maxRetries : ℕ) (baseDelay : ℚ) (jitter : ℕ → ℚ) : RetryTrace α :=
  withRetryCoreGo noRetry op baseDelay jitter 1 maxRetries none

/-- The duplicate-dispatch error message substring tested by
`error.message.includes(...)` in `src/retell.js` and `src/index.js`. -/
def alreadyBeingProcessedMsg : String := "already being processed"

/-- The abort classifier of `withRetry` in `src/retell.js`: HTTP status 400,
401 or 403, or a message containing the duplicate-dispatch marker. -/
def RetellClient.noRetryCheck (e : JsError) : Bool :=
  e.status == some 400 || e.status == some 401 || e.status == some 403 ||
    jsIncludes e.message alreadyBeingProcessedMsg

/-- From `src/retell.js` (`withRetry`). -/
def RetellClient.withRetry (op : ℕ → Except JsError α) (maxRetries : ℕ)
    (baseDelay : ℚ) (jitter : ℕ → ℚ) : RetryTrace α :=
  withRetryCore RetellClient.noRetryCheck op maxRetries baseDelay jitter

/-- Postgres error code for a unique violation, from `src/db.js`. -/
def uniqueViolationCode : String := "23505"

/-- Postgres error code for a foreign key violation, from `src/db.js`. -/
def foreignKeyViolationCode : String := "23503"

/-- The abort classifier of `withRetry` in `src/db.js`: Postgres unique or
foreign key violation codes. -/
def DatabaseClient.noRetryCheck (e : JsError) : Bool :=
  e.code == some uniqueViolationCode || e.code == some foreignKeyViolationCode

/-- From `src/db.js` (`withRetry`). -/
def DatabaseClient.withRetry (op : ℕ → Except JsError α) (maxRetries : ℕ)
    (baseDelay : ℚ) (jitter : ℕ → ℚ) : RetryTrace α :=
  withRetryCore DatabaseClient.noRetryCheck op maxRetries baseDelay jitter

/-- From `src/index.js` (`retryOperation`): the same loop with no abort
classifier at all.  Note that, like its two twins, it takes no shutdown flag:
its behaviour is a function of the operation and policy alone. -/
def RetellCaller.retryOperation (op : ℕ → Except JsError α) (maxRetries : ℕ)
    (baseDelay : ℚ) (jitter : ℕ → ℚ) : RetryTrace α :=
  withRetryCore (fun _ => false) op maxRetries baseDelay jitter

/-- A transient error: HTTP 503, no abort classifier matches it. -/
def err503 : JsError := ⟨some 503, "transient failure", none⟩

/-- A permanent error: HTTP 400. -/
def err400 : JsError := ⟨some 400, "bad request", none⟩

/-- A concrete operation for the retry scenarios: fails with a transient HTTP
503 on attempts 1 and 2, succeeds on attempt 3. -/
def opFailTwice : ℕ → Except JsError ℕ := fun k =>
  if k = 3 then .ok 0 else .error err503

/-- A concrete operation that always fails with a transient HTTP 503. -/
def opAlwaysFail : ℕ → Except JsError ℕ := fun _ => .error err503

/-- A concrete operation that always fails with a permanent HTTP 400. -/
def opPerm400 : ℕ → Except JsError ℕ := fun _ => .error err400

/-! ### JavaScript `Map` semantics

`activeCalls` and `activeSurveys` are JS `Map`s: insertion-ordered, unique
keys.  They are modelled as association lists; `set` overwrites in place,
`delete` removes the entry with the key, and iteration follows list order. -/

/-- JS `map.has(k)`. -/
def jsMapHas [DecidableEq κ] (m : List (κ × ε)) (k : κ) : Bool :=
  m.any (fun p => decide (p.1 = k))

/-- JS `map.get(k)` (`none` models `undefined`). -/
def jsMapGet [DecidableEq κ] (m : List (κ × ε)) (k : κ) : Option ε :=
  (m.find? (fun p => decide (p.1 = k))).map Prod.snd

/-- JS `map.set(k, v)`: overwrite an existing entry in place, else append. -/
def jsMapSet [DecidableEq κ] : List (κ × ε) → κ → ε → List (κ × ε)
  | [], k, v => [(k, v)]
  | (k', v') :: rest, k, v =>
    if k' = k then (k', v) :: rest else (k', v') :: jsMapSet rest k v

/-- JS `map.delete(k)`: drop the entry with key `k` (the first, which is the
only one when keys are unique). -/
def jsMapDelete [DecidableEq κ] : List (κ × ε) → κ → List (κ × ε)
  | [], _ => []
  | (k', v') :: rest, k =>
    if k' = k then rest else (k', v') :: jsMapDelete rest k

/-- The `for (const key of toRemove) { const info = map.get(key);
map.delete(key); … }` removal loop of `cleanupOldCalls`: returns the map after
all deletions together with the removed `(key, info)` pairs in loop order. -/
def jsMapRemoveAll [DecidableEq κ] : List κ → List (κ × ε) → List (κ × ε) × List (κ × ε)
  | [], m => (m, [])
  | k :: ks, m =>
    let info := jsMapGet m k
    let m' := jsMapDelete m k
    let rest := jsMapRemoveAll ks m'
    (rest.1, (match info with | some v => [(k, v)] | none => []) ++ rest.2)

/-! ### `src/db.js` rows and `src/retell.js` state -/

/-- A joined row of `survey_responses sr JOIN customers c` restricted to the
columns the claims depend on (the filter, ordering and call-payload columns of
the `getNextSurveyResponse` query; the remaining selected columns are opaque
payload).  `created_at` is an epoch timestamp in milliseconds; nullable SQL
columns are `Option`s. -/
structure SurveyRow where
  id : ℤ
  customer_id : ℤ
  customer_name : Option String
  client_email : Option String
  client_phone_number : Option String
  phone_number_validated : Option Bool
  processed : Option Bool
  data_sent_to_retell : Option Bool
  operational_frustration : Option String
  created_at : ℤ
deriving DecidableEq, Repr

/-- ILIKE pattern bodies of the `ORDER BY CASE` in `getNextSurveyResponse`. -/
def extremelyPat : String := "extremely"

/-- Second ILIKE pattern body. -/
def veryPat : String := "very"

/-- Third ILIKE pattern body. -/
def frustratedPat : String := "frustrated"

/-- The `ORDER BY CASE` urgency tier of `getNextSurveyResponse`
(`sr.operational_frustration ILIKE '%extremely%' → 1`, `'%very%' → 2`,
`'%frustrated%' → 3`, else 4; a NULL column matches no ILIKE and falls to 4).
ILIKE `'%x%'` is case-insensitive containment. -/
def frustrationTier (f : Option String) : ℕ :=
  match f with
  | none => 4
  | some s =>
    if jsIncludes s.toLower extremelyPat then 1
    else if jsIncludes s.toLower veryPat then 2
    else if jsIncludes s.toLower frustratedPat then 3
    else 4

/-- The row ordering of the query: urgency tier ascending, then `created_at`
descending (`priorityLE a b` means `a` sorts no later than `b`). -/
def priorityLE (a b : SurveyRow) : Bool :=
  frustrationTier a.operational_frustration < frustrationTier b.operational_frustration ||
    (frustrationTier a.operational_frustration == frustrationTier b.operational_frustration &&
      decide (b.created_at ≤ a.created_at))

/-- The SQL shard condition `(sr.id % $2) = ($1 - 1)` of `getNextSurveyResponse`
(Postgres `%` on integers is truncated remainder, like JS). -/
def sqlShardCond (id shardIndex totalShards : ℤ) : Bool :=
  Int.tmod id totalShards == shardIndex - 1

/-- The `WHERE` clause of `getNextSurveyResponse`: phone present and nonempty,
`processed IS NOT TRUE`, `data_sent_to_retell IS NOT TRUE`,
`phone_number_validated IS TRUE`, the shard condition, and
`sr.id <> ALL(excludedIds)`. -/
def eligibleRow (r : SurveyRow) (shardIndex totalShards : ℤ) (excludedIds : List ℤ) : Bool :=
  (match r.client_phone_number with
   | none => false
   | some p => !p.isEmpty) &&
  !(r.processed == some true) &&
  !(r.data_sent_to_retell == some true) &&
  (r.phone_number_validated == some true) &&
  sqlShardCond r.id shardIndex totalShards &&
  !(excludedIds.contains r.id)

/-- Metadata stored in `activeCalls` (keyed by Retell call id). -/
structure CallInfo where
  surveyId : ℤ
  createdAt : ℤ
  customerName : Option String
  phoneNumber : Option String
deriving DecidableEq, Repr

/-- Metadata stored in `activeSurveys` (keyed by survey id). -/
structure SurveyInfo where
  callId : String
  createdAt : ℤ
  customerName : Option String
  phoneNumber : Option String
deriving DecidableEq, Repr

/-- The two in-flight tracking maps of `RetellClient` (`src/retell.js`). -/
structure RetellState where
  activeCalls : List (String × CallInfo)
  activeSurveys : List (JsKey × SurveyInfo)
deriving DecidableEq, Repr

/-- The accepted-call response fields used by `createPhoneCall`. -/
structure CallResponse where
  call_id : String
  agent_id : String
deriving DecidableEq, Repr

/-- From `src/retell.js` (`isSurveyBeingProcessed`). -/
def RetellClient.isSurveyBeingProcessed (st : RetellState) (surveyId : JsKey) : Bool :=
  jsMapHas st.activeSurveys surveyId

/-- From `src/retell.js` (`createPhoneCall`): if the survey id is already
tracked, throw `Survey ${surveyId} is already being processed` without touching
either map; otherwise run the external call (its outcome is the `apiResult`
argument) and, on acceptance, record the call in `activeCalls` and the survey
in `activeSurveys`.  Always returns the new state next to the thrown error or
returned response. -/
def RetellClient.createPhoneCall (st : RetellState) (surveyData : SurveyRow)
    (apiResult : Except JsError CallResponse) (now : ℤ) :
    Except JsError CallResponse × RetellState :=
  let surveyId : JsKey := JsKey.num (surveyData.id : ℚ)
  if RetellClient.isSurveyBeingProcessed st surveyId then
    (Except.error
      ⟨none, "Survey " ++ toString surveyData.id ++ " is " ++ alreadyBeingProcessedMsg, none⟩,
     st)
  else
    match apiResult with
    | .error e => (.error e, st)
    | .ok resp =>
      (.ok resp,
       { activeCalls := jsMapSet st.activeCalls resp.call_id
           ⟨surveyData.id, now, surveyData.customer_name, surveyData.client_phone_number⟩,
         activeSurveys := jsMapSet st.activeSurveys surveyId
           ⟨resp.call_id, now, surveyData.customer_name, surveyData.client_phone_number⟩ })

/-- How the catch clause of `processSingleSurvey` (`src/index.js`) classifies a
dispatch failure. -/
inductive ProcessOutcome where
  | skippedDuplicate
  | permanentLogged
  | transientLogged
deriving DecidableEq, Repr

/-- The catch clause of `processSingleSurvey` (`src/index.js` lines 235-262):
an error whose message contains the duplicate-dispatch marker is a silent
debug-logged skip (`return`); a 400/401/403 is logged as permanent; anything
else is logged and left for the next cycle.  None of the three aborts the
scheduler loop. -/
def RetellCaller.processSingleSurveyCatch (e : JsError) : ProcessOutcome :=
  if jsIncludes e.message alreadyBeingProcessedMsg then .skippedDuplicate
  else if e.status == some 400 || e.status == some 401 || e.status == some 403 then
    .permanentLogged
  else .transientLogged

/-- From `src/retell.js` (`cleanupOldCalls`): collect the keys of entries with
`now - createdAt > maxAgeMs` from both maps, then delete them one by one
(reading each entry back for its log line).  Returns the new state and the
removed call and survey entries. -/
def RetellClient.cleanupOldCalls (st : RetellState) (now maxAgeMs : ℤ) :
    RetellState × List (String × CallInfo) × List (JsKey × SurveyInfo) :=
  let callsToRemove :=
    (st.activeCalls.filter (fun p => decide (maxAgeMs < now - p.2.createdAt))).map Prod.fst
  let surveysToRemove :=
    (st.activeSurveys.filter (fun p => decide (maxAgeMs < now - p.2.createdAt))).map Prod.fst
  let calls := jsMapRemoveAll callsToRemove st.activeCalls
  let surveys := jsMapRemoveAll surveysToRemove st.activeSurveys
  (⟨calls.1, surveys.1⟩, calls.2, surveys.2)

/-- From `src/db.js` (`getNextSurveyResponse`): build `excludedIds` from the
`activeSurveys` keys that pass `Number.isInteger`, filter the joined table by
the `WHERE` clause, skip rows locked by a concurrent claimant (`FOR UPDATE
SKIP LOCKED`), order by urgency tier then most-recent `created_at`, and return
the first row or `null`.  An empty result set is returned as `none`, not an
error. -/
def DatabaseClient.getNextSurveyResponse (rows : List SurveyRow)
    (shardIndex totalShards : ℤ) (activeSurveys : List (JsKey × SurveyInfo))
    (lockedIds : List ℤ) : Option SurveyRow :=
  let activeSurveyIds := ((activeSurveys.map Prod.fst).filter jsIsInteger).map jsKeyToInt
  let eligible := rows.filter (fun r =>
    eligibleRow r shardIndex totalShards activeSurveyIds && !(lockedIds.contains r.id))
  (eligible.mergeSort priorityLE).head?

/-- Phone number of the concrete example row. -/
def phone7 : String := "+15550100"

/-- Customer name of the concrete example row. -/
def name7 : String := "customer seven"

/-- A concrete eligible backlog row with id 7 for witnesses. -/
def row7 : SurveyRow :=
  { id := 7, customer_id := 1, customer_name := some name7, client_email := none,
    client_phone_number := some phone7, phone_number_validated := some true,
    processed := none, data_sent_to_retell := none, operational_frustration := none,
    created_at := 0 }

/-- The tracked entry of the C2 witness scenario. -/
def surveyInfo7 : SurveyInfo := ⟨"call_7", 0, some name7, some phone7⟩

/-- A tracker state already holding survey 7. -/
def stWith7 : RetellState := ⟨[], [(JsKey.num 7, surveyInfo7)]⟩

/-- A tracked survey entry 10 minutes old at sweep time (now = 2700000 ms). -/
def surveyAged10 : JsKey × SurveyInfo := (JsKey.num 1, ⟨"call_a", 2100000, none, none⟩)

/-- A tracked survey entry 31 minutes old at sweep time. -/
def surveyAged31 : JsKey × SurveyInfo := (JsKey.num 2, ⟨"call_b", 840000, none, none⟩)

/-- A tracked survey entry 45 minutes old at sweep time. -/
def surveyAged45 : JsKey × SurveyInfo := (JsKey.num 3, ⟨"call_c", 0, none, none⟩)

/-- A tracker state with entries aged 10, 31 and 45 minutes. -/
def stAged : RetellState := ⟨[], [surveyAged10, surveyAged31, surveyAged45]⟩

/-- The string "7", used as a non-integer map key. -/
def id7Str : String := "7"

/-- A survey tracked under the STRING key "7" instead of the number 7. -/
def strKey7 : JsKey := JsKey.str id7Str

/-- The entry tracked under the string key. -/
def strKeyInfo : SurveyInfo := ⟨"call_9", 0, none, none⟩

/-! ### Claim C1 — partition predicate -/

/-- C1: for every id ≥ 0, total ≥ 1 and 1 ≤ index ≤ total, `shouldProcessId`
returns true exactly when `id mod total = index − 1`; consequently exactly one
index in `[1, total]` satisfies it; and `shouldProcessId 7 2 2 = true`,
`shouldProcessId 8 2 2 = false`. -/
theorem C1_shouldProcessId_partition (id total : ℤ) (hid : 0 ≤ id) (htot : 1 ≤ total) :
    (∀ index : ℤ, 1 ≤ index → index ≤ total →
      (ShardingManager.shouldProcessId id index total = true ↔ id % total = index - 1)) ∧
    (∃! index : ℤ, 1 ≤ index ∧ index ≤ total ∧
      ShardingManager.shouldProcessId id index total = true) ∧
    ShardingManager.shouldProcessId 7 2 2 = true ∧
    ShardingManager.shouldProcessId 8 2 2 = false := by
  have htm : Int.tmod id total = id % total := Int.tmod_eq_emod hid (by omega)
  have hlb : 0 ≤ id % total := Int.emod_nonneg id (by omega)
  have hub : id % total < total := Int.emod_lt_of_pos id (by omega)
  refine ⟨?_, ?_, by decide, by decide⟩
  · intro index _ _
    simp [ShardingManager.shouldProcessId, htm]
  · refine ⟨id % total + 1, ⟨by omega, by omega, ?_⟩, ?_⟩
    · simp [ShardingManager.shouldProcessId, htm]
    · intro y hy
      have : Int.tmod id total = y - 1 := by
        have := hy.2.2
        simpa [ShardingManager.shouldProcessId] using this
      omega

/-- Witness for C1 at `id = 7`, `total = 2`. -/
theorem C1_shouldProcessId_partition_witness :
    (0 : ℤ) ≤ 7 ∧ (1 : ℤ) ≤ 2 ∧
    (∃! index : ℤ, 1 ≤ index ∧ index ≤ 2 ∧
      ShardingManager.shouldProcessId 7 index 2 = true) :=
  ⟨by norm_num, by norm_num, (C1_shouldProcessId_partition 7 2 (by norm_num) (by norm_num)).2.1⟩

/-! ### Claim C8 — shard-change monitoring -/

/-- The emitted callback invocations are exactly the consecutive pairs of
distinct observed totals. -/
theorem monitorEmitsFrom_eq (prev : ℤ) (rest : List ℤ) :
    ShardingManager.monitorEmitsFrom prev rest =
      ((prev :: rest).zip rest).filter (fun p => decide (p.1 ≠ p.2)) := by
  induction rest generalizing prev with
  | nil => rfl
  | cons t rest ih =>
    have hz : ((prev :: t :: rest).zip (t :: rest)) = (prev, t) :: ((t :: rest).zip rest) := rfl
    rw [hz]
    by_cases h : prev = t <;>
      simp [ShardingManager.monitorEmitsFrom, h, ih, List.filter_cons]

/-- C8: `startShardMonitoring` invokes the callback exactly once per transition
to a different total, with `(oldTotal, newTotal)`, never for a repeated
identical total and never for the first observation; the observation sequence
`[3,3,5,5,2]` yields exactly `(3,5)` then `(5,2)`. -/
theorem C8_startShardMonitoring_transitions (totals : List ℤ) :
    ShardingManager.monitorEmits totals =
      (totals.zip totals.tail).filter (fun p => decide (p.1 ≠ p.2)) ∧
    ShardingManager.monitorEmits [3, 3, 5, 5, 2] = [(3, 5), (5, 2)] := by
  constructor
  · cases totals with
    | nil => rfl
    | cons t rest => simpa [ShardingManager.monitorEmits] using monitorEmitsFrom_eq t rest
  · decide

/-! ### Retry loop lemmas -/

/-- A retry loop that is allowed at least one attempt invokes the operation at
least once. -/
theorem withRetryCoreGo_attempts_pos (noRetry : JsError → Bool)
    (op : ℕ → Except JsError α) (baseDelay : ℚ) (jitter : ℕ → ℚ)
    (attempt fuel : ℕ) (lastE : Option JsError) (hf : 1 ≤ fuel) :
    1 ≤ (withRetryCoreGo noRetry op baseDelay jitter attempt fuel lastE).attempts := by
  obtain ⟨f, rfl⟩ : ∃ f, fuel = f + 1 := ⟨fuel - 1, by omega⟩
  cases h : op attempt with
  | ok v => simp [withRetryCoreGo, h]
  | error e =>
    simp only [withRetryCoreGo, h]
    split
    · simp
    · split
      · simp
      · simp

/-- Characterization of the retry loop when no encountered error is classified
as non-retryable: the number of attempts is bounded by the fuel, the sleeps are
exactly the exponential-backoff delays (plus jitter) for the attempts actually
made, and if every attempt in range fails then all fuel is used and the error
of the last attempt is the propagated one. -/
theorem withRetryCoreGo_transient (noRetry : JsError → Bool)
    (op : ℕ → Except JsError α) (baseDelay : ℚ) (jitter : ℕ → ℚ)
    (ht : ∀ k e, op k = Except.error e → noRetry e = false) :
    ∀ fuel attempt lastE, 1 ≤ attempt →
      ((withRetryCoreGo noRetry op baseDelay jitter attempt fuel lastE).attempts ≤ fuel) ∧
      ((withRetryCoreGo noRetry op baseDelay jitter attempt fuel lastE).sleeps =
        (List.range
            ((withRetryCoreGo noRetry op baseDelay jitter attempt fuel lastE).attempts - 1)).map
          (fun i => baseDelay * 2 ^ (attempt - 1 + i) + jitter (attempt + i))) ∧
      ((∀ k, attempt ≤ k → k < attempt + fuel → ∃ e, op k = Except.error e) →
        (withRetryCoreGo noRetry op baseDelay jitter attempt fuel lastE).attempts = fuel ∧
        (1 ≤ fuel → ∀ e, op (attempt + fuel - 1) = Except.error e →
          (withRetryCoreGo noRetry op baseDelay jitter attempt fuel lastE).result =
            Except.error (some e))) := by
  intro fuel
  induction fuel with
  | zero =>
    intro attempt lastE _
    refine ⟨Nat.le_refl 0, by simp [withRetryCoreGo], fun _ => ⟨rfl, by omega⟩⟩
  | succ f ih =>
    intro attempt lastE ha
    obtain ⟨a, rfl⟩ : ∃ a, attempt = a + 1 := ⟨attempt - 1, by omega⟩
    cases h : op (a + 1) with
    | ok v =>
      refine ⟨by simp [withRetryCoreGo, h], by simp [withRetryCoreGo, h], fun hall => ?_⟩
      obtain ⟨e, he⟩ := hall (a + 1) (Nat.le_refl _) (by omega)
      rw [h] at he
      cases he
    | error e =>
      have hnr : noRetry e = false := ht _ _ h
      by_cases hf : f = 0
      · subst hf
        refine ⟨by simp [withRetryCoreGo, h, hnr], by simp [withRetryCoreGo, h, hnr],
          fun hall => ⟨by simp [withRetryCoreGo, h, hnr], fun _ e₂ he₂ => ?_⟩⟩
        have : (a + 1) + 1 - 1 = a + 1 := by omega
        rw [this, h] at he₂
        cases he₂
        simp [withRetryCoreGo, h, hnr]
      · obtain ⟨f', rfl⟩ : ∃ f', f = f' + 1 := ⟨f - 1, by omega⟩
        have hrest := ih (a + 2) (some e) (by omega)
        have hT : withRetryCoreGo noRetry op baseDelay jitter (a + 1) (f' + 1 + 1) lastE =
            ⟨(withRetryCoreGo noRetry op baseDelay jitter (a + 2) (f' + 1) (some e)).result,
             (withRetryCoreGo noRetry op baseDelay jitter (a + 2) (f' + 1) (some e)).attempts + 1,
             (baseDelay * 2 ^ (a + 1 - 1) + jitter (a + 1)) ::
               (withRetryCoreGo noRetry op baseDelay jitter (a + 2) (f' + 1) (some e)).sleeps⟩ := by
          simp [withRetryCoreGo, h, hnr]
        set rest := withRetryCoreGo noRetry op baseDelay jitter (a + 2) (f' + 1) (some e) with hrestdef
        refine ⟨?_, ?_, ?_⟩
        · rw [hT]
          have := hrest.1
          simpa using by omega
        · rw [hT]
          have hpos : 1 ≤ rest.attempts :=
            withRetryCoreGo_attempts_pos noRetry op baseDelay jitter (a + 2) (f' + 1) (some e)
              (by omega)
          obtain ⟨r, hr⟩ : ∃ r, rest.attempts = r + 1 := ⟨rest.attempts - 1, by omega⟩
          have hsl := hrest.2.1
          rw [hr] at hsl ⊢
          simp only [Nat.add_sub_cancel]
          rw [List.range_succ_eq_map, List.map_cons, List.map_map, hsl]
          congr 1
          simp only [Nat.add_sub_cancel]
          apply List.map_congr_left
          intro i _
          have e1 : a + 2 - 1 + i = a + 1 - 1 + (i + 1) := by omega
          have e2 : a + 2 + i = a + 1 + (i + 1) := by omega
          rw [e1, e2]
          simp [Function.comp]
        · intro hall
          have hall' : ∀ k, a + 2 ≤ k → k < a + 2 + (f' + 1) → ∃ e, op k = Except.error e := by
            intro k hk1 hk2
            exact hall k (by omega) (by omega)
          have hr3 := hrest.2.2 hall'
          constructor
          · rw [hT]
            simpa using by omega
          · intro _ e₂ he₂
            rw [hT]
            have hidx : a + 2 + (f' + 1) - 1 = a + 1 + (f' + 1 + 1) - 1 := by omega
            have := hr3.2 (by omega) e₂ (by rw [hidx]; exact he₂)
            simpa using this

/-! ### Claim C4 — permanent errors abort immediately -/

/-- C4: when the first failure carries HTTP status 400, 401 or 403 (classified
permanent), `withRetry` from `src/retell.js` invokes the operation exactly
once, performs no backoff sleep, and propagates the original error unchanged,
for every `maxRetries ≥ 1`. -/
theorem C4_withRetry_permanent_aborts {α : Type} (op : ℕ → Except JsError α)
    (maxRetries : ℕ) (baseDelay : ℚ) (jitter : ℕ → ℚ) (e : JsError)
    (hmax : 1 ≤ maxRetries) (h1 : op 1 = Except.error e)
    (hperm : e.status = some 400 ∨ e.status = some 401 ∨ e.status = some 403) :
    RetellClient.withRetry op maxRetries baseDelay jitter =
      ⟨Except.error (some e), 1, []⟩ := by
  obtain ⟨f, rfl⟩ : ∃ f, maxRetries = f + 1 := ⟨maxRetries - 1, by omega⟩
  have hnr : RetellClient.noRetryCheck e = true := by
    rcases hperm with h | h | h <;> simp [RetellClient.noRetryCheck, h]
  simp [RetellClient.withRetry, withRetryCore, withRetryCoreGo, h1, hnr]

/-- Witness for C4: a 400 error with `maxRetries = 3`. -/
theorem C4_withRetry_permanent_aborts_witness :
    (1 ≤ 3 ∧ opPerm400 1 = Except.error err400 ∧ err400.status = some 400) ∧
    RetellClient.withRetry opPerm400 3 1000 (fun _ => 0) =
      ⟨Except.error (some err400), 1, []⟩ :=
  ⟨⟨by norm_num, rfl, rfl⟩,
    C4_withRetry_permanent_aborts opPerm400 3 1000 (fun _ => 0) err400 (by norm_num) rfl
      (Or.inl rfl)⟩

/-! ### Claim C5 — transient errors: bounded retries, exponential backoff -/

/-- C5: for an operation whose failures are all classified transient, the
shared retry loop invokes it at most `maxRetries` times, sleeps
`baseDelay · 2^(attempt−1) + jitter attempt` between consecutive attempts (the
jitter argument models the random draw, bounded by its fixed ceiling at the
call sites), propagates the last error when every attempt fails, and in the
fail-fail-succeed scenario with `maxRetries = 3` returns the success value
after exactly the two sleeps, the second pre-jitter delay being ≥ the first. -/
theorem C5_withRetry_transient_backoff {α : Type} (noRetry : JsError → Bool)
    (op : ℕ → Except JsError α) (maxRetries : ℕ) (baseDelay : ℚ) (jitter : ℕ → ℚ)
    (hmax : 1 ≤ maxRetries)
    (ht : ∀ k e, op k = Except.error e → noRetry e = false)
    (hbase : 0 ≤ baseDelay) :
    ((withRetryCore noRetry op maxRetries baseDelay jitter).attempts ≤ maxRetries) ∧
    ((withRetryCore noRetry op maxRetries baseDelay jitter).sleeps =
      (List.range ((withRetryCore noRetry op maxRetries baseDelay jitter).attempts - 1)).map
        (fun i => baseDelay * 2 ^ i + jitter (i + 1))) ∧
    ((∀ k, 1 ≤ k → k ≤ maxRetries → ∃ e, op k = Except.error e) →
      ∀ e, op maxRetries = Except.error e →
        (withRetryCore noRetry op maxRetries baseDelay jitter).result =
          Except.error (some e)) ∧
    (maxRetries = 3 → ∀ e1 e2 v, op 1 = Except.error e1 → op 2 = Except.error e2 →
      op 3 = Except.ok v →
      (withRetryCore noRetry op maxRetries baseDelay jitter).result = Except.ok v ∧
      (withRetryCore noRetry op maxRetries baseDelay jitter).sleeps =
        [baseDelay * 2 ^ 0 + jitter 1, baseDelay * 2 ^ 1 + jitter 2] ∧
      baseDelay * 2 ^ 0 ≤ baseDelay * 2 ^ 1) := by
  have hgen := withRetryCoreGo_transient noRetry op baseDelay jitter ht maxRetries 1 none
    (Nat.le_refl 1)
  refine ⟨hgen.1, ?_, ?_, ?_⟩
  · have h2 := hgen.2.1
    have hfe : (fun i => baseDelay * 2 ^ (1 - 1 + i) + jitter (1 + i)) =
        (fun i : ℕ => baseDelay * 2 ^ i + jitter (i + 1)) := by
      funext i
      norm_num [Nat.add_comm]
    rw [withRetryCore, h2, hfe]
  · intro hall e he
    have hall' : ∀ k, 1 ≤ k → k < 1 + maxRetries → ∃ e, op k = Except.error e := by
      intro k hk1 hk2
      exact hall k hk1 (by omega)
    have hidx : 1 + maxRetries - 1 = maxRetries := by omega
    exact (hgen.2.2 hall').2 hmax e (by rw [hidx]; exact he)
  · intro hm3 e1 e2 v h1 h2 h3
    subst hm3
    have hn1 : noRetry e1 = false := ht 1 e1 h1
    have hn2 : noRetry e2 = false := ht 2 e2 h2
    refine ⟨?_, ?_, ?_⟩
    · simp [withRetryCore, withRetryCoreGo, h1, h2, h3, hn1, hn2]
    · simp [withRetryCore, withRetryCoreGo, h1, h2, h3, hn1, hn2]
    · have h20 : (2:ℚ) ^ 0 ≤ 2 ^ 1 := by norm_num
      calc baseDelay * 2 ^ 0 ≤ baseDelay * 2 ^ 1 := by nlinarith

/-- Witness for C5: the fail-fail-succeed operation under the `src/retell.js`
classifier, `maxRetries = 3`, `baseDelay = 1000`, zero jitter. -/
theorem C5_withRetry_transient_backoff_witness :
    (1 ≤ 3 ∧ (0:ℚ) ≤ 1000 ∧
      (∀ k e, opFailTwice k = Except.error e → RetellClient.noRetryCheck e = false)) ∧
    ((withRetryCore RetellClient.noRetryCheck opFailTwice 3 1000 (fun _ => 0)).result =
        Except.ok 0 ∧
      (withRetryCore RetellClient.noRetryCheck opFailTwice 3 1000 (fun _ => 0)).sleeps =
        [1000 * 2 ^ 0 + 0, 1000 * 2 ^ 1 + 0] ∧
      (1000:ℚ) * 2 ^ 0 ≤ 1000 * 2 ^ 1) := by
  have ht : ∀ k e, opFailTwice k = Except.error e → RetellClient.noRetryCheck e = false := by
    intro k e h
    by_cases hk : k = 3
    · simp [opFailTwice, hk] at h
    · simp [opFailTwice, hk] at h
      subst h
      decide
  refine ⟨⟨by norm_num, by norm_num, ht⟩, ?_⟩
  exact (C5_withRetry_transient_backoff RetellClient.noRetryCheck opFailTwice 3 1000
    (fun _ => 0) (by norm_num) ht (by norm_num)).2.2.2 rfl err503 err503 0 rfl rfl rfl

/-! ### Claim C6 — retry loops and the shutdown flag

The claim states that whenever the shutdown flag (`this.isShuttingDown`, set by
`shutdown()` in `src/index.js`) is set before a scheduled retry backoff sleep
completes, the retry helper abandons the loop and propagates the pending error
immediately.  None of the three retry helpers (`withRetry` in `src/retell.js`,
`withRetry` in `src/db.js`, `retryOperation` in `src/index.js`) reads that
flag: each is a pure function of the operation, `maxRetries`, `baseDelay` and
the random jitter, so its trace is identical whether or not shutdown has
begun.  The counterexample runs `retryOperation` on an operation that keeps
failing transiently: the trace contains both backoff sleeps and all three
attempts — the value the claim requires once shutdown has begun would have an
empty sleep list and a single pending error propagated at the first scheduled
sleep. -/

/-- Counterexample to C6: `retryOperation` (whose behaviour cannot depend on
the shutdown flag, which it does not receive or read) started with
`maxRetries = 3`, `baseDelay = 5000` on an always-transiently-failing
operation sleeps twice (5000 ms then 10000 ms pre-jitter) and attempts three
times; the sleep list is not empty, contradicting "no retry sleep is started
or waited out once shutdown has begun". -/
theorem C6_counterexample_sleeps_through_shutdown :
    (RetellCaller.retryOperation opAlwaysFail 3 5000 (fun _ => 0)).sleeps =
      [5000, 10000] ∧
    (RetellCaller.retryOperation opAlwaysFail 3 5000 (fun _ => 0)).attempts = 3 ∧
    (RetellCaller.retryOperation opAlwaysFail 3 5000 (fun _ => 0)).sleeps ≠ [] := by
  refine ⟨?_, ?_, ?_⟩ <;>
    · simp [RetellCaller.retryOperation, withRetryCore, withRetryCoreGo, opAlwaysFail]
      try norm_num

/-- C6 amended: the retry helpers observe no shutdown flag at all — their
trace is a function of the operation and the retry policy only — so an
operation that keeps failing transiently is attempted the full `maxRetries`
times with all `maxRetries − 1` backoff sleeps waited out, and the last error
is propagated only after the final attempt, regardless of any shutdown in
progress. -/
theorem C6_amended_retry_ignores_shutdown {α : Type} (op : ℕ → Except JsError α)
    (maxRetries : ℕ) (baseDelay : ℚ) (jitter : ℕ → ℚ)
    (hmax : 1 ≤ maxRetries) (hfail : ∀ k, ∃ e, op k = Except.error e) :
    (RetellCaller.retryOperation op maxRetries baseDelay jitter).attempts = maxRetries ∧
    (RetellCaller.retryOperation op maxRetries baseDelay jitter).sleeps.length =
      maxRetries - 1 ∧
    (∀ e, op maxRetries = Except.error e →
      (RetellCaller.retryOperation op maxRetries baseDelay jitter).result =
        Except.error (some e)) := by
  have ht : ∀ k e, op k = Except.error e → (fun _ : JsError => false) e = false :=
    fun _ _ _ => rfl
  have hgen := withRetryCoreGo_transient (fun _ => false) op baseDelay jitter ht maxRetries 1
    none (Nat.le_refl 1)
  have hall : ∀ k, 1 ≤ k → k < 1 + maxRetries → ∃ e, op k = Except.error e :=
    fun k _ _ => hfail k
  have hattempts : (RetellCaller.retryOperation op maxRetries baseDelay jitter).attempts =
      maxRetries := (hgen.2.2 hall).1
  refine ⟨hattempts, ?_, ?_⟩
  · have h2 := hgen.2.1
    rw [RetellCaller.retryOperation, withRetryCore] at *
    rw [h2, List.length_map, List.length_range, hattempts]
  · intro e he
    have hidx : 1 + maxRetries - 1 = maxRetries := by omega
    exact (hgen.2.2 hall).2 hmax e (by rw [hidx]; exact he)

/-- Witness for the amended C6 at the concrete always-failing operation. -/
theorem C6_amended_retry_ignores_shutdown_witness :
    (1 ≤ 3 ∧ (∀ k, ∃ e, opAlwaysFail k = Except.error e)) ∧
    ((RetellCaller.retryOperation opAlwaysFail 3 5000 (fun _ => 0)).attempts = 3 ∧
      (RetellCaller.retryOperation opAlwaysFail 3 5000 (fun _ => 0)).sleeps.length = 3 - 1 ∧
      (∀ e, opAlwaysFail 3 = Except.error e →
        (RetellCaller.retryOperation opAlwaysFail 3 5000 (fun _ => 0)).result =
          Except.error (some e))) :=
  ⟨⟨by norm_num, fun _ => ⟨err503, rfl⟩⟩,
    C6_amended_retry_ignores_shutdown opAlwaysFail 3 5000 (fun _ => 0) (by norm_num)
      (fun _ => ⟨err503, rfl⟩)⟩

/-! ### Claim C2 — duplicate dispatch is rejected without side effects -/

/-- Every character list is an initial segment of itself. -/
theorem startsWithChars_self : ∀ l : List Char, startsWithChars l l = true
  | [] => rfl
  | a :: as => by simp [startsWithChars, startsWithChars_self as]

/-- A string that ends with the needle contains the needle. -/
theorem includesChars_append_self (hay needle : List Char) :
    includesChars needle (hay ++ needle) = true := by
  induction hay with
  | nil => cases needle <;> simp [includesChars, startsWithChars_self, startsWithChars]
  | cons b bs ih => simp [includesChars, ih]

/-- A string built by appending the duplicate-dispatch marker contains it. -/
theorem jsIncludes_append_marker (x : String) :
    jsIncludes (x ++ alreadyBeingProcessedMsg) alreadyBeingProcessedMsg = true := by
  have h : (x ++ alreadyBeingProcessedMsg).toList =
      x.toList ++ alreadyBeingProcessedMsg.toList := by
    simp [String.toList]
  rw [jsIncludes, h]
  exact includesChars_append_self _ _

/-- C2: if a survey id is already present in `activeSurveys`, a second
`createPhoneCall` for the same id fails with an error whose message contains
"already being processed", leaves both tracking maps exactly as they were
(whatever entry they held stays, nothing is added), and the catch clause of
`processSingleSurvey` classifies that failure as a silent skip, not a fatal
error. -/
theorem C2_duplicate_dispatch_skipped (st : RetellState) (surveyData : SurveyRow)
    (apiResult : Except JsError CallResponse) (now : ℤ)
    (h : jsMapHas st.activeSurveys (JsKey.num (surveyData.id : ℚ)) = true) :
    ∃ e : JsError,
      RetellClient.createPhoneCall st surveyData apiResult now = (Except.error e, st) ∧
      jsIncludes e.message alreadyBeingProcessedMsg = true ∧
      RetellCaller.processSingleSurveyCatch e = ProcessOutcome.skippedDuplicate ∧
      (RetellClient.createPhoneCall st surveyData apiResult now).2.activeSurveys =
        st.activeSurveys ∧
      (RetellClient.createPhoneCall st surveyData apiResult now).2.activeCalls =
        st.activeCalls := by
  refine ⟨⟨none, "Survey " ++ toString surveyData.id ++ " is " ++ alreadyBeingProcessedMsg,
    none⟩, ?_, ?_, ?_, ?_, ?_⟩
  · simp [RetellClient.createPhoneCall, RetellClient.isSurveyBeingProcessed, h]
  · have := jsIncludes_append_marker ("Survey " ++ toString surveyData.id ++ " is ")
    simpa [String.append_assoc] using this
  · have := jsIncludes_append_marker ("Survey " ++ toString surveyData.id ++ " is ")
    simp only [RetellCaller.processSingleSurveyCatch]
    rw [if_pos]
    simpa [String.append_assoc] using this
  · simp [RetellClient.createPhoneCall, RetellClient.isSurveyBeingProcessed, h]
  · simp [RetellClient.createPhoneCall, RetellClient.isSurveyBeingProcessed, h]

/-- Witness for C2: survey 7 is already tracked; the second dispatch attempt
is rejected, both maps are untouched (the survey map still holds only the
original entry), and the caller treats it as a skip. -/
theorem C2_duplicate_dispatch_skipped_witness :
    (jsMapHas stWith7.activeSurveys (JsKey.num ((row7.id : ℤ) : ℚ)) = true) ∧
    (∃ e : JsError,
      RetellClient.createPhoneCall stWith7 row7 (Except.ok ⟨"call_8", "agent_1"⟩) 1000 =
        (Except.error e, stWith7) ∧
      jsIncludes e.message alreadyBeingProcessedMsg = true ∧
      RetellCaller.processSingleSurveyCatch e = ProcessOutcome.skippedDuplicate ∧
      (RetellClient.createPhoneCall stWith7 row7 (Except.ok ⟨"call_8", "agent_1"⟩)
          1000).2.activeSurveys = stWith7.activeSurveys ∧
      (RetellClient.createPhoneCall stWith7 row7 (Except.ok ⟨"call_8", "agent_1"⟩)
          1000).2.activeCalls = stWith7.activeCalls) ∧
    stWith7.activeSurveys = [(JsKey.num 7, surveyInfo7)] :=
  ⟨by decide,
    C2_duplicate_dispatch_skipped stWith7 row7 (Except.ok ⟨"call_8", "agent_1"⟩) 1000
      (by decide),
    rfl⟩

/-! ### Claim C3 — staleness sweep -/

/-- Removing keys that all differ from the head key leaves the head in place. -/
theorem jsMapRemoveAll_cons_not_mem [DecidableEq κ] (ks : List κ) (m : List (κ × ε))
    (k : κ) (v : ε) (hk : k ∉ ks) :
    jsMapRemoveAll ks ((k, v) :: m) =
      ((k, v) :: (jsMapRemoveAll ks m).1, (jsMapRemoveAll ks m).2) := by
  induction ks generalizing m with
  | nil => rfl
  | cons k' ks' ih =>
    have hne : ¬k = k' := fun h => hk (h ▸ List.mem_cons_self _ _)
    have hk' : k ∉ ks' := fun h => hk (List.mem_cons_of_mem _ h)
    simp [jsMapRemoveAll, jsMapGet, jsMapDelete, List.find?_cons, hne,
      fun m => ih m hk']

/-- With unique keys, collecting the keys of the entries satisfying `p` and
deleting them one by one removes exactly those entries and returns them in map
order. -/
theorem jsMapRemoveAll_filter [DecidableEq κ] (m : List (κ × ε)) (p : κ × ε → Bool)
    (hnd : (m.map Prod.fst).Nodup) :
    jsMapRemoveAll ((m.filter p).map Prod.fst) m =
      (m.filter (fun x => !(p x)), m.filter p) := by
  induction m with
  | nil => rfl
  | cons kv rest ih =>
    obtain ⟨k, v⟩ := kv
    have hpair : (∀ x : ε, (k, x) ∉ rest) ∧ (rest.map Prod.fst).Nodup := by simpa using hnd
    have hknotin : k ∉ rest.map Prod.fst := by
      intro hmem
      obtain ⟨⟨k₂, v₂⟩, hm, he⟩ := List.mem_map.mp hmem
      cases he
      exact hpair.1 v₂ hm
    have hndrest : (rest.map Prod.fst).Nodup := hpair.2
    by_cases hp : p (k, v)
    · have hfil : ((k, v) :: rest).filter p = (k, v) :: rest.filter p := by
        simp [List.filter_cons, hp]
      rw [hfil]
      simp only [List.map_cons]
      rw [show jsMapRemoveAll (k :: (rest.filter p).map Prod.fst) ((k, v) :: rest) =
        ((jsMapRemoveAll ((rest.filter p).map Prod.fst) rest).1,
         (k, v) :: (jsMapRemoveAll ((rest.filter p).map Prod.fst) rest).2) from ?_]
      · rw [ih hndrest]
        simp [List.filter_cons, hp]
      · simp [jsMapRemoveAll, jsMapGet, jsMapDelete, List.find?_cons]
    · have hfil : ((k, v) :: rest).filter p = rest.filter p := by
        simp [List.filter_cons, hp]
      rw [hfil]
      have hknotks : k ∉ (rest.filter p).map Prod.fst := by
        intro hmem
        apply hknotin
        obtain ⟨q, hq, he⟩ := List.mem_map.mp hmem
        exact List.mem_map.mpr ⟨q, List.mem_of_mem_filter hq, he⟩
      rw [jsMapRemoveAll_cons_not_mem _ _ _ _ hknotks, ih hndrest]
      simp [List.filter_cons, hp]

/-- C3: for every tracker state with unique keys (a JS `Map` invariant) and
every `maxAgeMs`, `cleanupOldCalls` removes and returns exactly the entries of
both maps whose age `now − createdAt` exceeds `maxAgeMs`, leaving exactly the
entries at most `maxAgeMs` old, in order. -/
theorem C3_cleanupOldCalls_sweeps_exactly (st : RetellState) (now maxAgeMs : ℤ)
    (hndC : (st.activeCalls.map Prod.fst).Nodup)
    (hndS : (st.activeSurveys.map Prod.fst).Nodup) :
    (RetellClient.cleanupOldCalls st now maxAgeMs).2.1 =
      st.activeCalls.filter (fun p => decide (maxAgeMs < now - p.2.createdAt)) ∧
    (RetellClient.cleanupOldCalls st now maxAgeMs).2.2 =
      st.activeSurveys.filter (fun p => decide (maxAgeMs < now - p.2.createdAt)) ∧
    (RetellClient.cleanupOldCalls st now maxAgeMs).1.activeCalls =
      st.activeCalls.filter (fun p => !decide (maxAgeMs < now - p.2.createdAt)) ∧
    (RetellClient.cleanupOldCalls st now maxAgeMs).1.activeSurveys =
      st.activeSurveys.filter (fun p => !decide (maxAgeMs < now - p.2.createdAt)) := by
  have hC := jsMapRemoveAll_filter st.activeCalls
    (fun p => decide (maxAgeMs < now - p.2.createdAt)) hndC
  have hS := jsMapRemoveAll_filter st.activeSurveys
    (fun p => decide (maxAgeMs < now - p.2.createdAt)) hndS
  refine ⟨?_, ?_, ?_, ?_⟩ <;> simp [RetellClient.cleanupOldCalls, hC, hS]

/-- Witness for C3: with `maxAge = 30` minutes and survey entries aged 10, 31
and 45 minutes, the sweep evicts exactly the 31- and 45-minute entries and
leaves the 10-minute entry. -/
theorem C3_cleanupOldCalls_sweeps_exactly_witness :
    ((stAged.activeCalls.map Prod.fst).Nodup ∧
      (stAged.activeSurveys.map Prod.fst).Nodup) ∧
    (RetellClient.cleanupOldCalls stAged 2700000 1800000).2.2 =
      [surveyAged31, surveyAged45] ∧
    (RetellClient.cleanupOldCalls stAged 2700000 1800000).1.activeSurveys =
      [surveyAged10] := by
  have h := C3_cleanupOldCalls_sweeps_exactly stAged 2700000 1800000 (by decide) (by decide)
  exact ⟨⟨by decide, by decide⟩, h.2.1.trans (by decide), h.2.2.2.trans (by decide)⟩

/-! ### Claim C7 — locked-claim dequeue -/

/-- The row ordering is reflexive. -/
theorem priorityLE_refl (a : SurveyRow) : priorityLE a a = true := by
  simp [priorityLE]

/-- The row ordering is transitive. -/
theorem priorityLE_trans : ∀ a b c : SurveyRow,
    priorityLE a b → priorityLE b c → priorityLE a c := by
  intro a b c hab hbc
  simp only [priorityLE, Bool.or_eq_true, Bool.and_eq_true, decide_eq_true_eq,
    beq_iff_eq] at hab hbc ⊢
  omega

/-- The row ordering is total. -/
theorem priorityLE_total : ∀ a b : SurveyRow, priorityLE a b || priorityLE b a := by
  intro a b
  simp only [priorityLE, Bool.or_eq_true, Bool.and_eq_true, decide_eq_true_eq,
    beq_iff_eq]
  omega

/-- The head of the sorted candidate list is a candidate and sorts no later
than every candidate. -/
theorem mergeSortHead_minimal (l : List SurveyRow) (r : SurveyRow)
    (hr : (l.mergeSort priorityLE).head? = some r) :
    r ∈ l ∧ ∀ r' ∈ l, priorityLE r r' = true := by
  have hperm := List.mergeSort_perm l priorityLE
  have hsorted := List.sorted_mergeSort priorityLE_trans priorityLE_total l
  cases hs : l.mergeSort priorityLE with
  | nil => rw [hs] at hr; cases hr
  | cons x t =>
    rw [hs] at hr hperm hsorted
    have hx : x = r := by
      simpa using hr
    subst hx
    refine ⟨hperm.mem_iff.mp (List.mem_cons_self _ _), ?_⟩
    intro r' hr'
    rcases List.mem_cons.mp (hperm.mem_iff.mpr hr') with heq | ht
    · rw [heq]
      exact priorityLE_refl _
    · exact (List.pairwise_cons.mp hsorted).1 r' ht

/-- The sorted candidate list is empty exactly when there is no candidate. -/
theorem mergeSortHead_none_iff (l : List SurveyRow) :
    (l.mergeSort priorityLE).head? = none ↔ l = [] := by
  constructor
  · intro h
    have hnil : l.mergeSort priorityLE = [] := List.head?_eq_none_iff.mp h
    have hlen := (List.mergeSort_perm l priorityLE).length_eq
    rw [hnil] at hlen
    exact List.length_eq_zero.mp hlen.symm
  · intro h
    subst h
    simp

/-- C7: any row returned by `getNextSurveyResponse` comes from the backlog, is
eligible (phone present and validated, not processed, not already marked sent,
owned by this shard, not in the exclusion list), is not locked by a concurrent
claimant, and is maximal in the ordering "urgency tier first, most recent
`created_at` within a tier" among all unlocked eligible rows; the result is
`none` exactly when no such row exists (an empty result set is not an error).
At most one row is returned by construction (the result is an `Option`). -/
theorem C7_getNextSurveyResponse_claims (rows : List SurveyRow)
    (shardIndex totalShards : ℤ) (activeSurveys : List (JsKey × SurveyInfo))
    (lockedIds : List ℤ) :
    (∀ r, DatabaseClient.getNextSurveyResponse rows shardIndex totalShards activeSurveys
        lockedIds = some r →
      r ∈ rows ∧
      eligibleRow r shardIndex totalShards
        (((activeSurveys.map Prod.fst).filter jsIsInteger).map jsKeyToInt) = true ∧
      lockedIds.contains r.id = false ∧
      (∀ r' ∈ rows,
        eligibleRow r' shardIndex totalShards
          (((activeSurveys.map Prod.fst).filter jsIsInteger).map jsKeyToInt) = true →
        lockedIds.contains r'.id = false →
        priorityLE r r' = true)) ∧
    (DatabaseClient.getNextSurveyResponse rows shardIndex totalShards activeSurveys
        lockedIds = none ↔
      rows.filter (fun r =>
        eligibleRow r shardIndex totalShards
          (((activeSurveys.map Prod.fst).filter jsIsInteger).map jsKeyToInt) &&
        !(lockedIds.contains r.id)) = []) := by
  constructor
  · intro r hr
    have hmin := mergeSortHead_minimal
      (rows.filter (fun r =>
        eligibleRow r shardIndex totalShards
          (((activeSurveys.map Prod.fst).filter jsIsInteger).map jsKeyToInt) &&
        !(lockedIds.contains r.id))) r hr
    obtain ⟨hmemf, hmax⟩ := hmin
    have hm := List.mem_filter.mp hmemf
    have hsplit := hm.2
    simp only [Bool.and_eq_true, Bool.not_eq_true'] at hsplit
    refine ⟨hm.1, hsplit.1, hsplit.2, ?_⟩
    intro r' hr' he hl
    refine hmax r' (List.mem_filter.mpr ⟨hr', ?_⟩)
    simp only [Bool.and_eq_true, Bool.not_eq_true']
    exact ⟨he, hl⟩
  · exact mergeSortHead_none_iff _

/-- Witness for C7 on a one-row backlog: the eligible row with id 7 is
returned, is eligible and unlocked, and is maximal. -/
theorem C7_getNextSurveyResponse_claims_witness :
    DatabaseClient.getNextSurveyResponse [row7] 1 1 [] [] = some row7 ∧
    (row7 ∈ [row7] ∧
      eligibleRow row7 1 1
        (((([] : List (JsKey × SurveyInfo)).map Prod.fst).filter jsIsInteger).map
          jsKeyToInt) = true ∧
      ([] : List ℤ).contains row7.id = false ∧
      (∀ r' ∈ [row7],
        eligibleRow r' 1 1
          (((([] : List (JsKey × SurveyInfo)).map Prod.fst).filter jsIsInteger).map
            jsKeyToInt) = true →
        ([] : List ℤ).contains r'.id = false →
        priorityLE row7 r' = true)) := by
  have hfil : ([row7].filter (fun r =>
      eligibleRow r 1 1
        (((([] : List (JsKey × SurveyInfo)).map Prod.fst).filter jsIsInteger).map
          jsKeyToInt) &&
      !(([] : List ℤ).contains r.id))) = [row7] := by decide
  have hval : DatabaseClient.getNextSurveyResponse [row7] 1 1 [] [] = some row7 := by
    simp only [DatabaseClient.getNextSurveyResponse]
    rw [hfil]
    simp
  exact ⟨hval, (C7_getNextSurveyResponse_claims [row7] 1 1 [] []).1 row7 hval⟩

/-! ### Claim C9 — live filter and offline enumeration agree -/

/-- Every id produced by the `getExampleIds` loop satisfies the partition
predicate (invariant: so does everything already accumulated). -/
theorem getExampleIdsGo_mem (si ts : ℤ) (mx : ℕ) :
    ∀ fuel i acc x, (∀ y ∈ acc, ShardingManager.shouldProcessId y si ts = true) →
      x ∈ ShardingManager.getExampleIdsGo si ts mx i fuel acc →
      ShardingManager.shouldProcessId x si ts = true := by
  intro fuel
  induction fuel with
  | zero =>
    intro i acc x hacc hx
    simp only [ShardingManager.getExampleIdsGo, List.mem_reverse] at hx
    exact hacc x hx
  | succ f ih =>
    intro i acc x hacc hx
    simp only [ShardingManager.getExampleIdsGo] at hx
    split at hx
    · rename_i hcond
      split at hx
      · rw [List.mem_reverse] at hx
        rcases List.mem_cons.mp hx with heq | hmem
        · rw [heq]; exact hcond
        · exact hacc x hmem
      · refine ih (i + 1) ((i : ℤ) :: acc) x ?_ hx
        intro y hy
        rcases List.mem_cons.mp hy with heq | hmem
        · rw [heq]; exact hcond
        · exact hacc y hmem
    · exact ih (i + 1) acc x hacc hx

/-- C9: the SQL shard condition of `getNextSurveyResponse` coincides with
`shouldProcessId` on every input (both are `(id % total) = (index − 1)` with
the same truncated remainder), and every id enumerated by `getExampleIds`
satisfies `shouldProcessId` for the current shard. -/
theorem C9_shard_condition_refinement :
    (∀ id shardIndex totalShards : ℤ,
      sqlShardCond id shardIndex totalShards =
        ShardingManager.shouldProcessId id shardIndex totalShards) ∧
    (∀ (shardIndex totalShards : ℤ) (maxExamples : ℕ),
      ∀ x ∈ ShardingManager.getExampleIds shardIndex totalShards maxExamples,
        ShardingManager.shouldProcessId x shardIndex totalShards = true) := by
  refine ⟨fun _ _ _ => rfl, ?_⟩
  intro si ts mx x hx
  exact getExampleIdsGo_mem si ts mx _ 1 [] x (by simp) hx

/-- Witness for C9: shard 1 of 2 enumerates id 2, which it indeed owns. -/
theorem C9_shard_condition_refinement_witness :
    (2 : ℤ) ∈ ShardingManager.getExampleIds 1 2 3 ∧
    ShardingManager.shouldProcessId 2 1 2 = true :=
  ⟨by decide, C9_shard_condition_refinement.2 1 2 3 2 (by decide)⟩

/-! ### Claim C10 — non-integer keys are dropped from the exclusion list -/

/-- C10: an `activeSurveys` entry whose key is not an integer (a string,
`null`, `undefined`, or a fractional number) contributes nothing to the
`excludedIds` array built by `getNextSurveyResponse` — the excluded ids, and
the whole query result, are the same as if the entry were absent — so a task
tracked under a non-integer key is not protected from being re-claimed. -/
theorem C10_nonInteger_keys_unprotected (k : JsKey) (v : SurveyInfo)
    (m : List (JsKey × SurveyInfo)) (hk : jsIsInteger k = false) :
    ((((k, v) :: m).map Prod.fst).filter jsIsInteger).map jsKeyToInt =
      ((m.map Prod.fst).filter jsIsInteger).map jsKeyToInt ∧
    (∀ (rows : List SurveyRow) (shardIndex totalShards : ℤ) (lockedIds : List ℤ),
      DatabaseClient.getNextSurveyResponse rows shardIndex totalShards ((k, v) :: m)
          lockedIds =
        DatabaseClient.getNextSurveyResponse rows shardIndex totalShards m lockedIds) := by
  have hfil : (((k, v) :: m).map Prod.fst).filter jsIsInteger =
      (m.map Prod.fst).filter jsIsInteger := by
    simp [List.filter_cons, hk]
  refine ⟨by rw [hfil], ?_⟩
  intro rows si ts locked
  simp only [DatabaseClient.getNextSurveyResponse]
  rw [hfil]

/-- Witness for C10: survey 7 tracked under the STRING key "7" does not
protect the row with id 7 — the query behaves as with no tracked entry and
returns that row again. -/
theorem C10_nonInteger_keys_unprotected_witness :
    jsIsInteger strKey7 = false ∧
    DatabaseClient.getNextSurveyResponse [row7] 1 1 [(strKey7, strKeyInfo)] [] =
      DatabaseClient.getNextSurveyResponse [row7] 1 1 [] [] ∧
    DatabaseClient.getNextSurveyResponse [row7] 1 1 [(strKey7, strKeyInfo)] [] =
      some row7 := by
  have h := (C10_nonInteger_keys_unprotected strKey7 strKeyInfo [] (by decide)).2 [row7] 1 1 []
  have hfil : ([row7].filter (fun r =>
      eligibleRow r 1 1
        (((([] : List (JsKey × SurveyInfo)).map Prod.fst).filter jsIsInteger).map
          jsKeyToInt) &&
      !(([] : List ℤ).contains r.id))) = [row7] := by decide
  have hval : DatabaseClient.getNextSurveyResponse [row7] 1 1 [] [] = some row7 := by
    simp only [DatabaseClient.getNextSurveyResponse]
    rw [hfil]
    simp
  exact ⟨by decide, h, h.trans hval⟩
